import Mathlib

/-!
Verification of the extraction parser and materialization layer of
`scripts/generate_site.py`.

The embedding models the two components with real decision logic:

* `parseResponse` — the multi-strategy extractor `parse_response`, including a
  faithful executable rendering of the four Python regular expressions it uses
  (the `===  name ===` split, the heading+fence scan, the bold-label scan, and
  the two code-fence `re.sub` cleanups).  Regular-expression semantics
  (leftmost match, greedy and lazy quantifiers with backtracking) are realised
  by explicit candidate enumeration in the order the backtracking engine
  explores them.
* `writeFiles` — the materializer `write_files`, over an explicit filesystem
  state (a map from path to contents plus a set of created directories).
  The I/O environment is a parameter `failing : String → Bool` naming the
  paths whose `open(..., "w")` raises; the Python exception propagating out of
  the loop is modelled by the `error` field of the result.

Strings are processed as `List Char` (Python `str` is a sequence of code
points), and Python library functions (`str.strip`, `os.path.normpath`,
`os.path.dirname`) are translated from their CPython reference definitions.
-/

namespace SiteGen

/-- Characters matched by Python's `\s` on ASCII text (space, tab, newline,
carriage return, vertical tab, form feed).  Python's full class adds only
exotic Unicode whitespace, which none of the analysed inputs contain. -/
def isPySpace (c : Char) : Bool :=
  c == ' ' || c == '\t' || c == '\n' || c == '\r' ||
  c == Char.ofNat 11 || c == Char.ofNat 12

/-- ASCII letter, the class `[a-zA-Z]`. -/
def isAsciiAlpha (c : Char) : Bool :=
  decide (97 ≤ c.toNat ∧ c.toNat ≤ 122) || decide (65 ≤ c.toNat ∧ c.toNat ≤ 90)

/-- ASCII lowercase letter, the class `[a-z]`. -/
def isLowerAlpha (c : Char) : Bool :=
  decide (97 ≤ c.toNat ∧ c.toNat ≤ 122)

/-- ASCII digit, the class `[0-9]`. -/
def isDigitB (c : Char) : Bool :=
  decide (48 ≤ c.toNat ∧ c.toNat ≤ 57)

/-- The filename character class of the fallback regexes: ASCII letters,
digits, underscore, dot, hyphen and slash. -/
def fnChar (c : Char) : Bool :=
  isAsciiAlpha c || isDigitB c || c == '_' || c == '.' || c == '-' || c == '/'

/-- Python `str.strip()`: remove leading and trailing whitespace. -/
def pyStrip (s : List Char) : List Char :=
  ((s.dropWhile isPySpace).reverse.dropWhile isPySpace).reverse

/-- Python `str.rstrip()`: remove trailing whitespace. -/
def pyRStrip (s : List Char) : List Char :=
  (s.reverse.dropWhile isPySpace).reverse

/-- Match a literal token at the start of the input; on success return the
remaining suffix. -/
def matchLit : List Char → List Char → Option (List Char)
  | [], s => some s
  | _ :: _, [] => none
  | c :: cs, d :: s => if c = d then matchLit cs s else none

/-- First success of `f` over a list of candidates, in order — the shape of a
backtracking choice point. -/
def firstSome : List α → (α → Option β) → Option β
  | [], _ => none
  | a :: l, f =>
    match f a with
    | some b => some b
    | none => firstSome l f

/-- Candidate consumed lengths for a greedy `cls*`, longest first (the order a
backtracking engine tries them). -/
def greedyStar (cls : Char → Bool) (s : List Char) : List Nat :=
  let m := (s.takeWhile cls).length
  (List.range (m + 1)).map (fun j => m - j)

/-- Candidate consumed lengths for a greedy `cls+`: longest first, at least
one character. -/
def greedyPlus (cls : Char → Bool) (s : List Char) : List Nat :=
  (greedyStar cls s).filter (fun n => n != 0)

/-- The literal `===` of the section-marker pattern. -/
def eqs3 : List Char := ['=', '=', '=']

/-- The literal triple backquote of the code-fence patterns, as a string. -/
def fenceStr : String := "```"

/-- The literal triple backquote of the code-fence patterns. -/
def fence3 : List Char := fenceStr.toList

/-- The literal `**` of the bold-label pattern. -/
def stars2 : List Char := ['*', '*']

/-- Match the closing `\s*===` of a section marker at the start of `s`
(greedy whitespace, with backtracking); returns the number of characters
consumed. -/
def closeMarker (s : List Char) : Option Nat :=
  firstSome (greedyStar isPySpace s) (fun w =>
    (matchLit eqs3 (s.drop w)).map (fun _ => w + 3))

/-- The lazy `[^=\n]*?\s*===` tail of the marker pattern: at each position the
lazy star first tries to close the marker here, then extends by one more
name character — exactly the order a lazy quantifier backtracks.  Returns the
extension characters and the length of the closing part. -/
def nameExt : List Char → Option (List Char × Nat)
  | [] => none
  | d :: s2 =>
    match closeMarker (d :: s2) with
    | some n => some ([], n)
    | none =>
      if d = '=' ∨ d = '\n' then none
      else (nameExt s2).map (fun p => (d :: p.1, p.2))

/-- Match the marker pattern `===\s*([^\s=][^=\n]*?)\s*===` (line 81 of the
source) at the start of `s`: returns the captured group and the total number
of characters consumed. -/
def matchMarker (s : List Char) : Option (List Char × Nat) :=
  match matchLit eqs3 s with
  | none => none
  | some s1 =>
    firstSome (greedyStar isPySpace s1) (fun w =>
      match s1.drop w with
      | [] => none
      | c :: s3 =>
        if isPySpace c ∨ c = '=' then none
        else (nameExt s3).map (fun p => (c :: p.1, 3 + w + 1 + p.1.length + p.2)))

/-- `re.split` on the marker pattern: scan left to right; at each position try
the pattern; each match contributes the piece before it and its captured
group, and scanning resumes at the match end.  `acc` is the current piece,
reversed.  A successful marker match consumes at least seven characters, so
the `n = 0` guard (needed only for the termination argument) is unreachable. -/
def splitMarkersGo (fuel : Nat) (acc : List Char) (s : List Char) : List (List Char) :=
  match fuel with
  | 0 => [acc.reverse ++ s]
  | fuel + 1 =>
    match s with
    | [] => [acc.reverse]
    | c :: rest =>
      match matchMarker (c :: rest) with
      | some (name, n) =>
        acc.reverse :: name :: splitMarkersGo fuel [] ((c :: rest).drop n)
      | none => splitMarkersGo fuel (c :: acc) rest

/-- The `parts` list of `parse_response`:
`[preamble, name1, body1, name2, body2, ..., tail]`.  The fuel starts above
the input length and every step of the scan consumes at least one input
character (a marker match consumes at least seven), so the fuel never runs
out; it only makes the recursion structural. -/
def splitMarkers (s : List Char) : List (List Char) :=
  splitMarkersGo (s.length + 1) [] s

/-- The `(parts[i], parts[i+1])` pairs for odd `i`, with the `else ""` default
for a missing final element (unreachable for actual split output, which always
has odd length). -/
def collectPairs : List (List Char) → List (List Char × List Char)
  | name :: body :: rest => (name, body) :: collectPairs rest
  | [name] => [(name, [])]
  | [] => []

/-- `re.sub(r'^```[a-zA-Z]*\n?', '', fc)`: the pattern is anchored at the
start of the string, the letter run is greedy and the optional newline is
taken when present, so the substitution is this deterministic strip. -/
def stripLeadFence (s : List Char) : List Char :=
  match matchLit fence3 s with
  | none => s
  | some s1 =>
    let s2 := s1.drop ((s1.takeWhile isAsciiAlpha).length)
    match s2 with
    | '\n' :: s3 => s3
    | _ => s2

/-- `re.sub(r'\n?```\s*$', '', t)` applied to an already-rstripped `t`: since
`t` has no trailing whitespace the `\s*` is forced empty and the only possible
match is the suffix `` ``` `` (with one preceding newline consumed when
present), so the substitution is this deterministic strip. -/
def stripTrailFence (t : List Char) : List Char :=
  match matchLit fence3 t.reverse with
  | none => t
  | some r =>
    match r with
    | '\n' :: r2 => r2.reverse
    | _ => r.reverse

/-- Python dict insertion: an existing key keeps its position and gets the new
value, a new key is appended. -/
def dictInsert (k v : String) : List (String × String) → List (String × String)
  | [] => [(k, v)]
  | (k2, v2) :: rest =>
    if k2 = k then (k, v) :: rest else (k2, v2) :: dictInsert k v rest

/-- Strategy 1 of `parse_response` (lines 80–94): split on `=== name ===`
markers; for each pair strip the surrounding code fence, and keep the entry
when both the stripped name and the fence-stripped content are non-empty. -/
def strategy1 (s : List Char) : List (String × String) :=
  let parts := splitMarkers s
  if parts.length > 1 then
    (collectPairs parts.tail).foldl
      (fun files pr =>
        let filename := pyStrip pr.1
        let fc0 := pyStrip pr.2
        let fc1 := stripLeadFence fc0
        let fc2 := stripTrailFence (pyRStrip fc1)
        if filename ≠ [] ∧ fc2 ≠ [] then
          dictInsert filename.asString (pyStrip fc2).asString files
        else files)
      []
  else []

/-- The lazy `(.*?)` (DOTALL) body of a fenced block, up to the literal
closing fence: the lazy star first tries to close here, then extends by one
arbitrary character.  Returns the body and the length of the closing fence. -/
def lazyBody : List Char → Option (List Char × Nat)
  | [] => none
  | d :: s2 =>
    match matchLit fence3 (d :: s2) with
    | some _ => some ([], 3)
    | none => (lazyBody s2).map (fun p => (d :: p.1, p.2))

/-- Match the fenced-block tail `` ```[a-zA-Z]*\n(.*?)``` `` shared by both
fallback patterns, at the start of `s`: returns the captured body and the
total number of characters consumed. -/
def matchFenceBlock (s : List Char) : Option (List Char × Nat) :=
  match matchLit fence3 s with
  | none => none
  | some s1 =>
    firstSome (greedyStar isAsciiAlpha s1) (fun f =>
      match s1.drop f with
      | '\n' :: s2 =>
        (lazyBody s2).map (fun p => (p.1, 3 + f + 1 + p.1.length + p.2))
      | _ => none)

/-- Match the filename group (one or more filename characters, a literal dot,
one or more letters) at the start of `s`, with the backtracking order of the
regex engine: longest filename-character run first, then longest letter run.
Returns the group and its length.

Committing to the first success here is sound for both fallback patterns:
the group is followed by a character outside the filename class (a newline in
the first pattern, an asterisk in the second), and for any shorter candidate
the following character lies inside the filename-character run, so no shorter
candidate can ever satisfy the rest of the pattern. -/
def matchNameDot (s : List Char) : Option (List Char × Nat) :=
  firstSome (greedyPlus fnChar s) (fun j =>
    match s.drop j with
    | '.' :: s2 =>
      firstSome (greedyPlus isAsciiAlpha s2) (fun l =>
        some (s.take (j + 1 + l), j + 1 + l))
    | _ => none)

/-- Match the tail of the heading+fence pattern after its prefix: the filename
group, a newline, then the fenced block. -/
def matchNameFenced (s : List Char) : Option (List Char × List Char × Nat) :=
  match matchNameDot s with
  | none => none
  | some (g1, n1) =>
    match s.drop n1 with
    | '\n' :: s2 =>
      (matchFenceBlock s2).map (fun p => (g1, p.1, n1 + 1 + p.2))
    | _ => none

/-- Candidate consumed lengths for the heading alternative `#{1,4}\s*` of the
first fallback pattern, in backtracking order: the bounded repeat greedily
from four (or the available run) down to one, then the whitespace greedily. -/
def f1HeadCandsA (s : List Char) : List Nat :=
  let r := min 4 ((s.takeWhile (fun c => c == '#')).length)
  ((List.range r).map (fun i => r - i)).flatMap (fun n =>
    (greedyStar isPySpace (s.drop n)).map (fun w => n + w))

/-- Candidate consumed lengths for the fence-opener alternative
`` ```[a-z]*\n `` of the first fallback pattern, in backtracking order. -/
def f1HeadCandsB (s : List Char) : List Nat :=
  match matchLit fence3 s with
  | none => []
  | some s1 =>
    (greedyStar isLowerAlpha s1).filterMap (fun l =>
      match s1.drop l with
      | '\n' :: _ => some (3 + l + 1)
      | _ => none)

/-- Candidate consumed lengths for the alternation prefix of the first
fallback pattern, first alternative first (the two alternatives start with
different characters, so at most one list is non-empty). -/
def f1HeadCands (s : List Char) : List Nat :=
  f1HeadCandsA s ++ f1HeadCandsB s

/-- Match the full first-fallback pattern (lines 99–102 of the source:
heading marker or fence opener, filename, fenced block) at the start of `s`:
returns both captured groups and the total number of characters consumed. -/
def matchF1At (s : List Char) : Option (List Char × List Char × Nat) :=
  firstSome (f1HeadCands s) (fun p2 =>
    (matchNameFenced (s.drop p2)).map (fun r => (r.1, r.2.1, p2 + r.2.2)))

/-- `re.finditer` for the first fallback pattern: scan left to right,
non-overlapping matches, resuming at each match end.  As in `splitMarkers`,
the fuel only makes the recursion structural: every step consumes at least
one character (a match consumes at least eight). -/
def finditerF1Go (fuel : Nat) (s : List Char) : List (List Char × List Char) :=
  match fuel with
  | 0 => []
  | fuel + 1 =>
    match s with
    | [] => []
    | c :: rest =>
      match matchF1At (c :: rest) with
      | some r => (r.1, r.2.1) :: finditerF1Go fuel ((c :: rest).drop r.2.2)
      | none => finditerF1Go fuel rest

/-- All matches of the first fallback pattern, in order of occurrence. -/
def finditerF1 (s : List Char) : List (List Char × List Char) :=
  finditerF1Go (s.length + 1) s

/-- Strategy 2 of `parse_response` (lines 98–104): headings or fence openers
followed by a filename and a fenced code block. -/
def strategy2 (s : List Char) : List (String × String) :=
  (finditerF1 s).foldl
    (fun files g => dictInsert (pyStrip g.1).asString (pyStrip g.2).asString files)
    []

/-- Match the full second-fallback pattern (lines 108–110 of the source:
bold-wrapped filename, optional whitespace, newline, fenced block) at the
start of `s`. -/
def matchF2At (s : List Char) : Option (List Char × List Char × Nat) :=
  match matchLit stars2 s with
  | none => none
  | some s1 =>
    match matchNameDot s1 with
    | none => none
    | some (g1, n1) =>
      match matchLit stars2 (s1.drop n1) with
      | none => none
      | some s3 =>
        firstSome (greedyStar isPySpace s3) (fun w =>
          match s3.drop w with
          | '\n' :: s4 =>
            (matchFenceBlock s4).map (fun p => (g1, p.1, 2 + n1 + 2 + w + 1 + p.2))
          | _ => none)

/-- `re.finditer` for the second fallback pattern, with the same structural
fuel as `finditerF1Go`. -/
def finditerF2Go (fuel : Nat) (s : List Char) : List (List Char × List Char) :=
  match fuel with
  | 0 => []
  | fuel + 1 =>
    match s with
    | [] => []
    | c :: rest =>
      match matchF2At (c :: rest) with
      | some r => (r.1, r.2.1) :: finditerF2Go fuel ((c :: rest).drop r.2.2)
      | none => finditerF2Go fuel rest

/-- All matches of the second fallback pattern, in order of occurrence. -/
def finditerF2 (s : List Char) : List (List Char × List Char) :=
  finditerF2Go (s.length + 1) s

/-- Strategy 3 of `parse_response` (lines 107–113): bold-labelled fenced code
blocks. -/
def strategy3 (s : List Char) : List (String × String) :=
  (finditerF2 s).foldl
    (fun files g => dictInsert (pyStrip g.1).asString (pyStrip g.2).asString files)
    []

/-- `parse_response` (lines 71–123): the three pattern strategies in priority
order — each tried only when every earlier one produced nothing — followed by
the unconditional `index.html` fallback.  The second component counts the
`WARNING` messages printed to stderr (one exactly when the fallback fires). -/
def parseResponse (content : String) : List (String × String) × Nat :=
  let s := content.toList
  let files := strategy1 s
  let files := if files = [] then strategy2 s else files
  let files := if files = [] then strategy3 s else files
  if files = [] then ([("index.html", content)], 1) else (files, 0)

/-- The literal `..` tested by the path-safety check. -/
def dotdot : String := ".."

/-- Python `str.startswith`. -/
def strStartsWith (s pre : String) : Bool :=
  (matchLit pre.toList s.toList).isSome

/-- Split a character list on `/`, as Python `str.split` with separator. -/
def splitSlash : List Char → List (List Char)
  | [] => [[]]
  | c :: rest =>
    let r := splitSlash rest
    if c = '/' then [] :: r
    else
      match r with
      | h :: t => (c :: h) :: t
      | [] => [[c]]

/-- `posixpath.normpath`, translated from the CPython reference
implementation: collapse empty and `.` components, resolve `..` against a
preceding component, preserve leading `..` components of relative paths and
the exact number (one or two) of meaningful leading slashes. -/
def normpath (p : String) : String :=
  let cs := p.toList
  if cs = [] then "." else
  let slashes : Nat :=
    match cs with
    | '/' :: '/' :: '/' :: _ => 1
    | '/' :: '/' :: _ => 2
    | '/' :: _ => 1
    | _ => 0
  let comps := splitSlash cs
  let newComps := comps.foldl
    (fun acc comp =>
      if comp = [] ∨ comp = ['.'] then acc
      else if comp ≠ ['.', '.'] ∨ (slashes = 0 ∧ acc = []) ∨
              acc.getLast? = some ['.', '.'] then acc ++ [comp]
      else if acc ≠ [] then acc.dropLast
      else acc)
    []
  let joined := List.replicate slashes '/' ++ List.intercalate ['/'] newComps
  if joined = [] then "." else joined.asString

/-- `posixpath.dirname`, translated from the CPython reference
implementation: everything up to the last slash, with trailing slashes
stripped unless the head consists solely of slashes. -/
def dirname (p : String) : String :=
  let headRev := p.toList.reverse.dropWhile (fun c => ¬ c = '/')
  if headRev = [] then "" else
  if headRev.all (fun c => c = '/') then headRev.reverse.asString
  else ((headRev.dropWhile (fun c => c = '/')).reverse).asString

/-- The filesystem state the materializer acts on: written files (path to
contents) and the set of directories created so far. -/
structure FS where
  files : List (String × String)
  dirs : List String
deriving DecidableEq

/-- Overwrite semantics of `open(path, "w")` followed by `write`: the path
maps to exactly the new contents afterwards. -/
def setFile (p c : String) (files : List (String × String)) : List (String × String) :=
  (p, c) :: files.filter (fun e => e.1 != p)

/-- Contents currently stored at `p`. -/
def lookupF (p : String) (files : List (String × String)) : Option String :=
  (files.find? (fun e => e.1 == p)).map (fun e => e.2)

/-- `os.makedirs(d, exist_ok=True)` at the granularity of the requested
directory path: record it, idempotently. -/
def mkdirs (d : String) (dirs : List String) : List String :=
  if d ∈ dirs then dirs else d :: dirs

/-- One reported outcome per processed entry: the `Written:` line with the
content length, or the `SKIP: unsafe path` notice naming the original
filename. -/
inductive WriteOutcome where
  | written (path : String) (len : Nat)
  | skipped (filename : String)
deriving DecidableEq

/-- Result of a `write_files` run: the returned list of written paths, the
filesystem state, the reported outcomes, the trace of paths for which
`open(..., "w")` was invoked, and — when the I/O environment raised — the
path whose write failed (the exception that propagates out of the loop). -/
structure WriteResult where
  written : List String
  fs : FS
  outcomes : List WriteOutcome
  attempts : List String
  error : Option String
deriving DecidableEq

/-- `write_files` (lines 126–148): for each entry normalize the path, skip it
when the normalized form starts with `..`, otherwise create the parent
directory if any and write the content.  `failing p = true` models the
environment raising `OSError` from `open(p, "w")`; the exception propagates,
so no later entry is processed. -/
def writeFiles (failing : String → Bool) : List (String × String) → FS → WriteResult
  | [], fs => ⟨[], fs, [], [], none⟩
  | (filename, content) :: rest, fs =>
    let clean := normpath filename
    if strStartsWith clean dotdot then
      let r := writeFiles failing rest fs
      { r with outcomes := WriteOutcome.skipped filename :: r.outcomes }
    else
      let parent := dirname clean
      let fs1 : FS := if parent = "" then fs else { fs with dirs := mkdirs parent fs.dirs }
      if failing clean then
        ⟨[], fs1, [], [clean], some clean⟩
      else
        let fs2 : FS := { fs1 with files := setFile clean content fs1.files }
        let r := writeFiles failing rest fs2
        { r with
            written := clean :: r.written,
            outcomes := WriteOutcome.written clean content.toList.length :: r.outcomes,
            attempts := clean :: r.attempts }

/-- The ideal I/O environment in which no write raises. -/
def noFail : String → Bool := fun _ => false

/-- Left-biased choice on options (proof helper used to state the net effect
of a materializer run). -/
def orO (a b : Option String) : Option String :=
  match a with
  | some x => some x
  | none => b

/-- Proof helper, not part of the source model: the content of the last entry
in the list that passes the safety check and whose normalized path is `p` —
the net contents a failure-free `write_files` run leaves at `p`. -/
def lastWrite : List (String × String) → String → Option String
  | [], _ => none
  | (f, c) :: rest, p =>
    match lastWrite rest p with
    | some c2 => some c2
    | none =>
      if strStartsWith (normpath f) dotdot = false ∧ normpath f = p then some c
      else none

/-- Proof helper, not part of the source model: the parent directories a
failure-free `write_files` run asks `os.makedirs` to create. -/
def neededDirs : List (String × String) → List String
  | [] => []
  | (f, _) :: rest =>
    if strStartsWith (normpath f) dotdot = true ∨ dirname (normpath f) = "" then
      neededDirs rest
    else dirname (normpath f) :: neededDirs rest

/-- C2: the extractor is total — for every input string `parse_response`
returns (the embedding is a total function) and its result mapping contains
at least one entry, the unconditional fallback guaranteeing the last case. -/
theorem c2_extractor_total (s : String) : (parseResponse s).1 ≠ [] := by
  by_cases h1 : strategy1 s.data = [] <;>
    by_cases h2 : strategy2 s.data = [] <;>
      by_cases h3 : strategy3 s.data = [] <;>
        simp [parseResponse, h1, h2, h3]

/-- C5: strategy selection is strict priority order with early termination —
whenever the delimited-section strategy yields at least one entry, the result
is exactly its output (the fallback strategies and the warning-producing
last resort contribute nothing). -/
theorem c5_priority (s : String) (h : strategy1 s.toList ≠ []) :
    (parseResponse s).1 = strategy1 s.toList ∧ (parseResponse s).2 = 0 := by
  have h1 : ¬ strategy1 s.data = [] := h
  simp [parseResponse, h1]

/-- Witness for C5 at a concrete input on which the primary strategy fires. -/
theorem c5_priority_witness :
    strategy1 (("=== a ===\nhello").toList) ≠ [] ∧
    (parseResponse ("=== a ===\nhello")).1 = strategy1 (("=== a ===\nhello").toList) ∧
    (parseResponse ("=== a ===\nhello")).2 = 0 :=
  ⟨by decide, c5_priority ("=== a ===\nhello") (by decide)⟩

/-- C7: when all three pattern strategies produce zero entries,
`parse_response` returns exactly one entry, `index.html` mapped to the
verbatim untrimmed input, and the warning is emitted exactly once; when any
strategy produces an entry, no warning is emitted. -/
theorem c7_fallback_warning (s : String) :
    (strategy1 s.toList = [] → strategy2 s.toList = [] → strategy3 s.toList = [] →
      parseResponse s = ([("index.html", s)], 1)) ∧
    (strategy1 s.toList ≠ [] ∨ strategy2 s.toList ≠ [] ∨ strategy3 s.toList ≠ [] →
      (parseResponse s).2 = 0) := by
  constructor
  · intro h1 h2 h3
    have g1 : strategy1 s.data = [] := h1
    have g2 : strategy2 s.data = [] := h2
    have g3 : strategy3 s.data = [] := h3
    simp [parseResponse, g1, g2, g3]
  · intro h
    by_cases h1 : strategy1 s.data = []
    · by_cases h2 : strategy2 s.data = []
      · by_cases h3 : strategy3 s.data = []
        · rcases h with h | h | h
          · exact absurd h1 h
          · exact absurd h2 h
          · exact absurd h3 h
        · simp [parseResponse, h1, h2, h3]
      · simp [parseResponse, h1, h2]
    · simp [parseResponse, h1]

/-- Witness for C7: the empty string takes the fallback with one warning, and
an input recognized by the primary strategy produces no warning. -/
theorem c7_fallback_warning_witness :
    parseResponse ("") = ([("index.html", "")], 1) ∧
    (parseResponse ("=== b ===\nworld")).2 = 0 :=
  ⟨(c7_fallback_warning ("")).1 (by decide) (by decide) (by decide),
   (c7_fallback_warning ("=== b ===\nworld")).2 (Or.inl (by decide))⟩

/-- C6: the fence-stripping example — a `=== a.css ===` section whose body is
a css-tagged fenced block containing `body{}` yields exactly the entry
mapping `a.css` to `body{}`. -/
theorem c6_fence_strip :
    parseResponse ("=== a.css ===\n```css\nbody\x7b\x7d\n```") =
      ([("a.css", "body\x7b\x7d")], 0) := by decide

/-- C9 counterexample: the primary pattern strategy itself can produce an
entry with empty content (a section whose fenced block body is a single
space), refuting the clause that entries produced by the pattern strategies
are guaranteed non-empty. -/
theorem c9_nonempty_guarantee_cex :
    strategy1 (("=== a ===\n``` \n```").toList) = [("a", "")] ∧
    parseResponse ("=== a ===\n``` \n```") = ([("a", "")], 0) := by decide

/-- C9 (amended): on the empty input `parse_response` returns exactly the
single-entry mapping from `index.html` to the empty string — the fixed
default filename is concretely `index.html` and the fallback content may be
empty. -/
theorem c9_empty_input :
    parseResponse ("") = ([("index.html", "")], 1) := by decide

/-- C4 counterexample: a marker whose name portion contains internal
whitespace, `=== my file ===`, is recognized by the delimited-section
strategy (the regex only requires the first name character to be
non-whitespace), refuting the claim that such markers are not recognized. -/
theorem c4_internal_whitespace_cex :
    strategy1 (("=== my file ===\nhello").toList) = [("my file", "hello")] := by decide

/-- C1 demonstration: an absolute path slips through the `..`-prefix safety
check — `write_files` on the entry `/etc/passwd` writes the file at the
absolute path `/etc/passwd`, outside the destination root, creating `/etc`
and reporting a `Written` outcome instead of skipping it. -/
theorem c1_absolute_path_escape :
    writeFiles noFail [("/etc/passwd", "pwned")] ⟨[], []⟩ =
      ⟨["/etc/passwd"], ⟨[("/etc/passwd", "pwned")], ["/etc"]⟩,
       [WriteOutcome.written "/etc/passwd" 5], ["/etc/passwd"], none⟩ := by decide

/-- C3 counterexample: an I/O failure on the first entry aborts the loop — the
exception surfaces (`error` is set), and the second entry is never attempted
(no open call, no outcome, no write for it), refuting the claim that the
remaining files are still attempted. -/
theorem c3_abort_cex :
    writeFiles (fun p => p == "a.txt") [("a.txt", "x"), ("b.txt", "y")] ⟨[], []⟩ =
      ⟨[], ⟨[], []⟩, [], ["a.txt"], some "a.txt"⟩ := by decide

/-- C10: the path-safety check is a pure string-prefix test on the normalized
name — any entry whose `os.path.normpath` form begins with `..` is skipped
with a notice and contributes nothing else to the run (no write, no open
call, no written path), whatever the I/O environment, the remaining entries
and the filesystem state. -/
theorem c10_prefix_skip (failing : String → Bool) (f c : String)
    (rest : List (String × String)) (fs : FS)
    (h : strStartsWith (normpath f) dotdot = true) :
    writeFiles failing ((f, c) :: rest) fs =
      { writeFiles failing rest fs with
          outcomes := WriteOutcome.skipped f :: (writeFiles failing rest fs).outcomes } := by
  simp [writeFiles, h]

/-- Witness for C10 at the entry name `..config`, which names a file directly
inside the destination root (its normalized form is itself, with no upward
traversal) and is nevertheless skipped. -/
theorem c10_prefix_skip_witness :
    normpath "..config" = "..config" ∧
    writeFiles noFail [("..config", "x")] ⟨[], []⟩ =
      ⟨[], ⟨[], []⟩, [WriteOutcome.skipped "..config"], [], none⟩ := by
  refine ⟨by decide, ?_⟩
  rw [c10_prefix_skip noFail ("..config") ("x") [] ⟨[], []⟩ (by decide)]
  decide

/-- A `write_files` run over a concatenation composes, provided the first
part raises no exception: the second part runs on the filesystem state the
first part leaves, and the reported lists concatenate. -/
theorem writeFiles_append (failing : String → Bool) (pre tail : List (String × String))
    (fs : FS) (h : (writeFiles failing pre fs).error = none) :
    writeFiles failing (pre ++ tail) fs =
      ⟨(writeFiles failing pre fs).written ++
         (writeFiles failing tail (writeFiles failing pre fs).fs).written,
       (writeFiles failing tail (writeFiles failing pre fs).fs).fs,
       (writeFiles failing pre fs).outcomes ++
         (writeFiles failing tail (writeFiles failing pre fs).fs).outcomes,
       (writeFiles failing pre fs).attempts ++
         (writeFiles failing tail (writeFiles failing pre fs).fs).attempts,
       (writeFiles failing tail (writeFiles failing pre fs).fs).error⟩ := by
  induction pre generalizing fs with
  | nil => simp [writeFiles]
  | cons e pre ih =>
    obtain ⟨f, c⟩ := e
    by_cases hs : strStartsWith (normpath f) dotdot
    · rw [List.cons_append]
      simp only [writeFiles, hs, if_true] at h ⊢
      rw [ih fs h]
      simp
    · by_cases hf : failing (normpath f)
      · exfalso
        simp [writeFiles, hs, hf] at h
      · rw [List.cons_append]
        simp only [writeFiles, hs, hf] at h ⊢
        rw [ih _ h]
        simp

/-- C3 (amended): an underlying I/O failure while writing one file is
surfaced to the caller — the exception propagates with the failing path, it
is not swallowed — but it aborts the run: whatever entries follow the
failing one, no further path is opened, written or reported, while the
entries before it remain processed. -/
theorem c3_amended (failing : String → Bool) (pre : List (String × String))
    (f c : String) (rest : List (String × String)) (fs : FS)
    (hpre : (writeFiles failing pre fs).error = none)
    (hsafe : strStartsWith (normpath f) dotdot = false)
    (hfail : failing (normpath f) = true) :
    (writeFiles failing (pre ++ (f, c) :: rest) fs).error = some (normpath f) ∧
    (writeFiles failing (pre ++ (f, c) :: rest) fs).attempts =
      (writeFiles failing pre fs).attempts ++ [normpath f] ∧
    (writeFiles failing (pre ++ (f, c) :: rest) fs).written =
      (writeFiles failing pre fs).written ∧
    (writeFiles failing (pre ++ (f, c) :: rest) fs).fs.files =
      (writeFiles failing pre fs).fs.files := by
  rw [writeFiles_append failing pre ((f, c) :: rest) fs hpre]
  have ht : writeFiles failing ((f, c) :: rest) (writeFiles failing pre fs).fs =
      ⟨[],
       if dirname (normpath f) = "" then (writeFiles failing pre fs).fs
       else { (writeFiles failing pre fs).fs with
                dirs := mkdirs (dirname (normpath f)) (writeFiles failing pre fs).fs.dirs },
       [], [normpath f], some (normpath f)⟩ := by
    simp [writeFiles, hsafe, hfail]
  rw [ht]
  refine ⟨rfl, rfl, by simp, ?_⟩
  by_cases hp : dirname (normpath f) = "" <;> simp [hp]

/-- Witness for C3 (amended): with a successfully written entry before and a
pending entry after, a failure on `bad.txt` surfaces as the propagated error
while only `ok.txt` and `bad.txt` were ever opened — `later.txt` is not
attempted. -/
theorem c3_amended_witness :
    (writeFiles (fun p => p == "bad.txt")
        ([("ok.txt", "a")] ++ ("bad.txt", "x") :: [("later.txt", "z")]) ⟨[], []⟩).error =
      some (normpath "bad.txt") ∧
    (writeFiles (fun p => p == "bad.txt")
        ([("ok.txt", "a")] ++ ("bad.txt", "x") :: [("later.txt", "z")]) ⟨[], []⟩).attempts =
      (writeFiles (fun p => p == "bad.txt") [("ok.txt", "a")] ⟨[], []⟩).attempts ++
        [normpath "bad.txt"] ∧
    (writeFiles (fun p => p == "bad.txt")
        ([("ok.txt", "a")] ++ ("bad.txt", "x") :: [("later.txt", "z")]) ⟨[], []⟩).written =
      (writeFiles (fun p => p == "bad.txt") [("ok.txt", "a")] ⟨[], []⟩).written ∧
    (writeFiles (fun p => p == "bad.txt")
        ([("ok.txt", "a")] ++ ("bad.txt", "x") :: [("later.txt", "z")]) ⟨[], []⟩).fs.files =
      (writeFiles (fun p => p == "bad.txt") [("ok.txt", "a")] ⟨[], []⟩).fs.files :=
  c3_amended (fun p => p == "bad.txt") [("ok.txt", "a")] ("bad.txt") ("x")
    [("later.txt", "z")] ⟨[], []⟩ (by decide) (by decide) (by decide)

/-- On a run of non-whitespace, non-`=` characters followed by a space and
the closing `===`, the lazy name extension consumes exactly the run and the
close consumes four characters. -/
theorem nameExt_run (cs rest : List Char)
    (hcs : ∀ d ∈ cs, isPySpace d = false ∧ d ≠ '=') :
    nameExt (cs ++ ' ' :: '=' :: '=' :: '=' :: rest) = some (cs, 4) := by
  induction cs with
  | nil => rfl
  | cons d cs ih =>
    have hd : isPySpace d = false ∧ d ≠ '=' := hcs d (by simp)
    have hcs2 : ∀ e ∈ cs, isPySpace e = false ∧ e ≠ '=' :=
      fun e he => hcs e (List.mem_cons_of_mem d he)
    have hne : ¬ ('=' : Char) = d := fun hcon => hd.2 hcon.symm
    have hnl : ¬ (d = '\n') := by
      intro hcon
      rw [hcon] at hd
      simp [isPySpace] at hd
    have hclose : closeMarker (d :: (cs ++ ' ' :: '=' :: '=' :: '=' :: rest)) = none := by
      unfold closeMarker greedyStar
      rw [List.takeWhile_cons_of_neg (by simp [hd.1])]
      simp [firstSome, matchLit, hne]
    rw [List.cons_append, nameExt, hclose]
    rw [if_neg (by simp [hd.2, hnl]), ih hcs2]
    rfl

/-- C4 (amended): the delimited-section regex recognizes every marker
`=== <name> ===` whose name is a run of non-whitespace, non-`=` characters,
capturing exactly the name; the name portion is however not limited to such
runs — only its first character must be non-whitespace, so names with
internal whitespace are also recognized (see the counterexample). -/
theorem c4_marker_recognized (c : Char) (cs rest : List Char)
    (hc : isPySpace c = false) (hce : c ≠ '=')
    (hcs : ∀ d ∈ cs, isPySpace d = false ∧ d ≠ '=') :
    matchMarker ('=' :: '=' :: '=' :: ' ' :: c :: (cs ++ ' ' :: '=' :: '=' :: '=' :: rest)) =
      some (c :: cs, cs.length + 9) := by
  have h1 : matchLit eqs3 ('=' :: '=' :: '=' :: ' ' :: c :: (cs ++ ' ' :: '=' :: '=' :: '=' :: rest)) =
      some (' ' :: c :: (cs ++ ' ' :: '=' :: '=' :: '=' :: rest)) := rfl
  have h2 : (' ' :: c :: (cs ++ ' ' :: '=' :: '=' :: '=' :: rest)).takeWhile isPySpace = [' '] := by
    rw [List.takeWhile_cons_of_pos (by decide), List.takeWhile_cons_of_neg (by simp [hc])]
  simp only [matchMarker, h1, greedyStar, h2]
  have h3 : (List.range ([' '].length + 1)).map (fun j => [' '].length - j) = [1, 0] := by decide
  rw [h3, firstSome]
  simp only [List.drop_succ_cons, List.drop_zero]
  rw [if_neg (by simp [hc, hce]), nameExt_run cs rest hcs]
  simp only [Option.map_some']
  simp only [Option.some.injEq, Prod.mk.injEq]
  exact ⟨trivial, by omega⟩

/-- Witness for C4 (amended) at the marker `=== ab ===` followed by further
text. -/
theorem c4_marker_recognized_witness :
    matchMarker ('=' :: '=' :: '=' :: ' ' :: 'a' :: (['b'] ++ ' ' :: '=' :: '=' :: '=' :: ['x'])) =
      some ('a' :: ['b'], ['b'].length + 9) :=
  c4_marker_recognized 'a' ['b'] ['x'] (by decide) (by decide) (by decide)

/-- Looking up a key in a list filtered on a different key is unchanged. -/
theorem find?_filter_ne (p q : String) (h : p ≠ q) (l : List (String × String)) :
    (l.filter (fun e => e.1 != q)).find? (fun e => e.1 == p) =
      l.find? (fun e => e.1 == p) := by
  induction l with
  | nil => rfl
  | cons e l ih =>
    by_cases he : e.1 = q
    · have h1 : (e.1 != q) = false := by simp [he]
      have h2 : (e.1 == p) = false := by
        simp [he]
        exact fun hcon => h hcon.symm
      simp [List.filter_cons, h1, List.find?_cons, h2, ih]
    · have h1 : (e.1 != q) = true := by simp [he]
      simp only [List.filter_cons, h1, if_true, List.find?_cons]
      cases hep : (e.1 == p) <;> simp [hep, ih]

/-- Lookup after an overwrite: the written key maps to the new content and
every other key is unchanged. -/
theorem lookupF_setFile (p q c : String) (files : List (String × String)) :
    lookupF p (setFile q c files) = if p = q then some c else lookupF p files := by
  unfold lookupF setFile
  by_cases h : p = q
  · subst h
    simp [List.find?_cons]
  · have hqp : (q == p) = false := by
      simp
      exact fun hcon => h hcon.symm
    simp [List.find?_cons, hqp, h, find?_filter_ne p q h]

/-- The contents a failure-free run leaves at a path: the last safe entry
normalizing to it when one exists, the prior contents otherwise. -/
theorem lookupF_writeFiles (entries : List (String × String)) (fs : FS) (p : String) :
    lookupF p (writeFiles noFail entries fs).fs.files =
      orO (lastWrite entries p) (lookupF p fs.files) := by
  induction entries generalizing fs with
  | nil => simp [writeFiles, lastWrite, orO]
  | cons e rest ih =>
    obtain ⟨f, c⟩ := e
    by_cases hs : strStartsWith (normpath f) dotdot
    · simp only [writeFiles, hs, if_true]
      rw [ih fs]
      simp only [lastWrite, hs]
      cases hlw : lastWrite rest p <;> simp [orO]
    · simp only [writeFiles, hs, noFail, Bool.false_eq_true, if_false]
      rw [ih]
      have hfiles :
          ((if dirname (normpath f) = "" then fs
            else { fs with dirs := mkdirs (dirname (normpath f)) fs.dirs }) : FS).files =
            fs.files := by
        split <;> rfl
      rw [hfiles, lookupF_setFile]
      simp only [lastWrite, hs]
      cases hlw : lastWrite rest p with
      | some c2 => simp [orO]
      | none =>
        simp only [orO]
        by_cases hp : p = normpath f
        · simp [hp]
        · have hp2 : ¬ (normpath f = p) := fun hcon => hp hcon.symm
          simp [hp, hp2]

/-- Membership in the directory set after an idempotent create. -/
theorem mem_mkdirs (d q : String) (dirs : List String) :
    d ∈ mkdirs q dirs ↔ d = q ∨ d ∈ dirs := by
  unfold mkdirs
  split
  · constructor
    · exact fun h => Or.inr h
    · rintro (rfl | h)
      · assumption
      · assumption
  · simp [List.mem_cons]

/-- The directories present after a failure-free run: those already present
plus those the processed entries need. -/
theorem mem_dirs_writeFiles (entries : List (String × String)) (fs : FS) (d : String) :
    d ∈ (writeFiles noFail entries fs).fs.dirs ↔
      d ∈ fs.dirs ∨ d ∈ neededDirs entries := by
  induction entries generalizing fs with
  | nil => simp [writeFiles, neededDirs]
  | cons e rest ih =>
    obtain ⟨f, c⟩ := e
    by_cases hs : strStartsWith (normpath f) dotdot
    · simp only [writeFiles, hs, if_true]
      rw [ih fs]
      simp [neededDirs, hs]
    · simp only [writeFiles, hs, noFail, Bool.false_eq_true, if_false]
      rw [ih]
      by_cases hp : dirname (normpath f) = ""
      · simp [hp, neededDirs, hs]
      · simp only [neededDirs, hs, Bool.false_eq_true, false_or, hp, if_false]
        simp [mem_mkdirs, hp]
        tauto

/-- The list of written paths returned by a failure-free run does not depend
on the starting filesystem state. -/
theorem written_indep (entries : List (String × String)) (fs fs2 : FS) :
    (writeFiles noFail entries fs).written = (writeFiles noFail entries fs2).written := by
  induction entries generalizing fs fs2 with
  | nil => rfl
  | cons e rest ih =>
    obtain ⟨f, c⟩ := e
    by_cases hs : strStartsWith (normpath f) dotdot
    · simp only [writeFiles, hs, if_true]
      exact ih fs fs2
    · simp only [writeFiles, hs, noFail, Bool.false_eq_true, if_false]
      rw [ih
        { files := setFile (normpath f) c
            ((if dirname (normpath f) = "" then fs
              else { fs with dirs := mkdirs (dirname (normpath f)) fs.dirs }) : FS).files,
          dirs := ((if dirname (normpath f) = "" then fs
              else { fs with dirs := mkdirs (dirname (normpath f)) fs.dirs }) : FS).dirs }
        { files := setFile (normpath f) c
            ((if dirname (normpath f) = "" then fs2
              else { fs2 with dirs := mkdirs (dirname (normpath f)) fs2.dirs }) : FS).files,
          dirs := ((if dirname (normpath f) = "" then fs2
              else { fs2 with dirs := mkdirs (dirname (normpath f)) fs2.dirs }) : FS).dirs }]

/-- C8: materialization is idempotent — running `write_files` twice in
succession on the same mapping (in the failure-free environment) leaves the
same file contents at every path, creates no additional directories, and the
second run reports the same written paths (each file overwritten
identically). -/
theorem c8_idempotent (entries : List (String × String)) (fs : FS) :
    (∀ p, lookupF p (writeFiles noFail entries
            (writeFiles noFail entries fs).fs).fs.files =
          lookupF p (writeFiles noFail entries fs).fs.files) ∧
    (∀ d, d ∈ (writeFiles noFail entries
            (writeFiles noFail entries fs).fs).fs.dirs ↔
          d ∈ (writeFiles noFail entries fs).fs.dirs) ∧
    (writeFiles noFail entries (writeFiles noFail entries fs).fs).written =
      (writeFiles noFail entries fs).written := by
  refine ⟨?_, ?_, ?_⟩
  · intro p
    rw [lookupF_writeFiles, lookupF_writeFiles]
    cases lastWrite entries p <;> simp [orO]
  · intro d
    rw [mem_dirs_writeFiles, mem_dirs_writeFiles]
    tauto
  · exact written_indep entries (writeFiles noFail entries fs).fs fs

end SiteGen
